import Mathlib

/- Verification development for the conference-discovery bot.

The Python sources are shallowly embedded:
  * strings are lists of characters (`Str`), Python's `str.lower` is a
    character map, Python's substring test `a in b` is `List.IsInfix`;
  * a Python dictionary key that may be absent is an `Option` field;
  * code that can raise (KeyError on a missing key, IndexError on
    out-of-range indexing) is modelled in the `Option` monad, `none`
    standing for a raised exception;
  * Python's stable `list.sort` is modelled by a stable sort
    (`List.insertionSort`): stable sorting by a key determines the output
    list uniquely, so any stable sort is the same function. -/

namespace ConfBot

abbrev Str := List Char

/-- Python `str.lower()` restricted to the ASCII range, as Lean's
`Char.toLower` is; every string the embedded code lowercases is ASCII
apart from decorative emoji, which have no case. -/
def pyLower (s : Str) : Str := s.map Char.toLower

/-- Python `str.split()` with no argument: split on runs of whitespace,
dropping empty pieces. -/
def pySplit (s : Str) : List Str :=
  (List.splitOnP (fun c => c.isWhitespace) s).filter (· ≠ [])

/-- Python `any(...)` over a generator whose element test may raise:
evaluated left to right, short-circuiting at the first `True`, and
propagating an exception raised by an element. -/
def pyAny (f : α → Option Bool) : List α → Option Bool
  | [] => some false
  | x :: xs =>
    match f x with
    | none => none
    | some true => some true
    | some false => pyAny f xs

/-- The sentinel country option from the COUNTRIES list. -/
def allCountries : Str := "🌎 All Countries".toList

/-- The sentinel direction option from the DIRECTIONS list. -/
def allDirections : Str := "✨ All Directions".toList

/-- A conference record as consumed by `_matches_filters` and the listing
commands: a JSON dictionary whose keys may be absent (`none`).  The
`early_bird_available` key is tri-state: `some true`, `some false`, or
absent (unknown). -/
structure Conference where
  country : Option Str
  directions : Option (List Str)
  date : Option Str
  early_bird_available : Option Bool
deriving DecidableEq

/-- The `user_filters` dictionary read by `_matches_filters`: the
`countries` and `directions` keys (the matcher defaults both to `[]`),
plus the `notify_early_bird` key that conference_bot.py's subscribe
handler stores and that the matcher never reads (absent = `none`). -/
structure UserFilters where
  countries : List Str
  directions : List Str
  notify_early_bird : Option Bool
deriving DecidableEq

/-- One country token's test inside `_matches_filters`:
`c.split()[-1].lower() in conference['country'].lower()`.
IndexError on a blank token and KeyError on a missing `country` key
both yield `none`. -/
def countryTest (conference : Conference) (c : Str) : Option Bool := do
  let w ← (pySplit c).getLast?
  let cc ← conference.country
  pure (decide (pyLower w <:+: pyLower cc))

/-- One direction token's test inside `_matches_filters`:
`d.split()[1].lower() in [dir.lower() for dir in conference['directions']]`.
Note `[1]` (the second whitespace word) and exact list membership. -/
def directionTest (conference : Conference) (d : Str) : Option Bool := do
  let w ← (pySplit d)[1]?
  let ds ← conference.directions
  pure (decide (pyLower w ∈ ds.map pyLower))

/-- The `country_match` intermediate of `_matches_filters`. -/
def country_match (conference : Conference) (countries : List Str) : Option Bool :=
  if allCountries ∈ countries then some true
  else pyAny (countryTest conference) countries

/-- The `direction_match` intermediate of `_matches_filters`. -/
def direction_match (conference : Conference) (directions : List Str) : Option Bool :=
  if allDirections ∈ directions then some true
  else pyAny (directionTest conference) directions

/-- `ConferenceBot._matches_filters`: the all/all fast path, then the
country and direction intermediates (both are computed even when the
first is `False`, as in the source), conjoined. -/
def matches_filters (conference : Conference) (user_filters : UserFilters) : Option Bool :=
  let countries := user_filters.countries
  let directions := user_filters.directions
  if allCountries ∈ countries ∧ allDirections ∈ directions then some true
  else do
    let cm ← country_match conference countries
    let dm ← direction_match conference directions
    pure (cm && dm)

/-- A record of the shape emitted by `scrape_confs_tech` (every key is
written with a `get(..., default)` there, so all fields are present;
`early_bird_available` is attached later by `discover_new_conferences`). -/
structure ScrapedConf where
  name : Str
  url : Str
  start_date : Str
  end_date : Str
  city : Str
  country : Str
  topics : List Str
  source : Str
  early_bird_available : Option Bool
deriving DecidableEq

/-- The early-bird enrichment step of the deduplication loop: the probe
(`check_early_bird_status`, network I/O, modelled as an abstract function)
sets `early_bird_available` only when it returns a determined value. -/
def applyEarlyBird (probe : Str → Option Bool) (conf : ScrapedConf) : ScrapedConf :=
  match probe conf.url with
  | some b => { conf with early_bird_available := some b }
  | none => conf

/-- The URL-deduplication loop of `discover_new_conferences`
(conference_scraper.py lines 164-181): `seen` is the set of URLs already
kept; a record whose URL is empty or already seen is skipped outright. -/
def dedupLoop (probe : Str → Option Bool) :
    List ScrapedConf → List Str → List ScrapedConf
  | [], _ => []
  | conf :: rest, seen =>
    if conf.url ≠ [] ∧ conf.url ∉ seen then
      applyEarlyBird probe conf :: dedupLoop probe rest (conf.url :: seen)
    else
      dedupLoop probe rest seen

/-- `discover_new_conferences`: deduplicate the gathered batch by URL,
starting from an empty seen-set. -/
def discover_new_conferences (probe : Str → Option Bool)
    (all_conferences : List ScrapedConf) : List ScrapedConf :=
  dedupLoop probe all_conferences []

/-- The hardcoded European allow-list of `_is_relevant_conference`. -/
def european_countries : List Str :=
  (["Germany", "France", "UK", "United Kingdom", "Spain", "Italy",
    "Netherlands", "Belgium", "Poland", "Sweden", "Norway", "Denmark",
    "Finland", "Austria", "Switzerland", "Portugal", "Czech Republic",
    "Greece", "Ireland", "Romania", "Hungary", "Croatia", "Slovenia"]).map String.toList

/-- The hardcoded relevant-topics vocabulary of `_is_relevant_conference`. -/
def relevant_topics : List Str :=
  (["testing", "qa", "quality", "software", "dev", "tech",
    "agile", "javascript", "python", "java", "devops",
    "cloud", "security", "mobile", "web", "data"]).map String.toList

/-- A raw source payload from the confs.tech feed: a JSON dictionary whose
keys may be absent. -/
structure SourcePayload where
  name : Option Str
  url : Option Str
  startDate : Option Str
  endDate : Option Str
  city : Option Str
  country : Option Str
  topics : Option (List Str)
deriving DecidableEq

/-- `_is_relevant_conference` (conference_scraper.py lines 49-83): reject
unless the country contains an allow-list entry case-insensitively; then
accept on a vocabulary hit in the space-joined lowercased topic string
(only when the topic list is non-empty), else on a vocabulary hit in the
lowercased name, else reject. -/
def is_relevant_conference (conf : SourcePayload) : Bool :=
  let country := conf.country.getD []
  if ¬ european_countries.any (fun eu => decide (pyLower eu <:+: pyLower country)) then
    false
  else
    let topics := conf.topics.getD []
    let name := pyLower (conf.name.getD [])
    if topics ≠ [] ∧
        relevant_topics.any (fun t => decide (t <:+: pyLower (List.intercalate [' '] topics))) then
      true
    else if relevant_topics.any (fun t => decide (t <:+: name)) then
      true
    else
      false

/-- The relevance criterion as the specification words it: the country
matches the allow-list, and some vocabulary token occurs in the topic set
or in the name — all as case-insensitive substring matches. -/
def relevantSpec (conf : SourcePayload) : Prop :=
  (∃ eu ∈ european_countries, pyLower eu <:+: pyLower (conf.country.getD [])) ∧
  ((∃ tag ∈ conf.topics.getD [], ∃ t ∈ relevant_topics, t <:+: pyLower tag) ∨
   (∃ t ∈ relevant_topics, t <:+: pyLower (conf.name.getD [])))

/-- A user record of conference_bot (1).py: the subscribed flag and the
filters dictionary. -/
structure UserRecord where
  subscribed : Bool
  filters : UserFilters
deriving DecidableEq

/-- The record that start_command, subscribe_command, myfilters_command and
list_command all create for an unknown user id: not subscribed, both axes
the sentinel, no early-bird key. -/
def defaultUserRecord : UserRecord :=
  { subscribed := false,
    filters :=
      { countries := [allCountries], directions := [allDirections],
        notify_early_bird := none } }

/-- start_command's user-initialization step (conference_bot (1).py lines
195-209): insert the default record when the user id is unknown. -/
def start_command_init (users : Str → Option UserRecord) (user_id : Str) :
    Str → Option UserRecord :=
  match users user_id with
  | some _ => users
  | none => fun u => if u = user_id then some defaultUserRecord else users u

/-- subscribe_command (conference_bot (1).py lines 533-547): create the
same default record if the user is unknown, then set its subscribed flag. -/
def subscribe_command (users : Str → Option UserRecord) (user_id : Str) :
    Str → Option UserRecord :=
  let users1 := start_command_init users user_id
  fun u =>
    if u = user_id then (users1 u).map (fun r => { r with subscribed := true })
    else users1 u

/-- The filters dictionary stored by conference_bot.py's subscribe handler. -/
structure SubscribeFilters where
  countries : List Str
  topics : List Str
  notify_early_bird : Bool
deriving DecidableEq

/-- A user record of conference_bot.py. -/
structure SubscribeRecord where
  subscribed : Bool
  filters : SubscribeFilters
deriving DecidableEq

/-- The filters conference_bot.py's subscribe creates for a new user:
no countries, five concrete topics, and notify_early_bird switched on. -/
def subscribeDefaultFilters : SubscribeFilters :=
  { countries := [],
    topics := ["QA".toList, "testing".toList, "IT".toList, "DevOps".toList,
               "software".toList],
    notify_early_bird := true }

/-- `ConferenceBot.subscribe` from conference_bot.py (lines 142-169): an
unknown user id gets a fresh record, subscribed, with the default filters;
a known one just has its subscribed flag set.  (The stored subscribed_date
wall-clock timestamp is not modelled.) -/
def subscribe (users : Str → Option SubscribeRecord) (user_id : Str) :
    Str → Option SubscribeRecord :=
  match users user_id with
  | none => fun u =>
      if u = user_id then
        some { subscribed := true, filters := subscribeDefaultFilters }
      else users u
  | some r => fun u =>
      if u = user_id then some { r with subscribed := true } else users u

/-- A Python list comprehension whose element test may raise: an exception
anywhere aborts the whole comprehension. -/
def pyFilter (p : α → Option Bool) : List α → Option (List α)
  | [] => some []
  | x :: xs => do
    let b ← p x
    let rest ← pyFilter p xs
    pure (if b then x :: rest else rest)

/-- Key extraction for the whole list, one element at a time, an absent
key raising for the whole operation (Python computes `key=...` per element
during the sort; a KeyError anywhere aborts the sort). -/
def mapOpt (f : α → Option β) : List α → Option (List β)
  | [] => some []
  | x :: xs => do
    let y ← f x
    let ys ← mapOpt f xs
    pure (y :: ys)

/-- `matching.sort(key=lambda x: x['date'])`: Python's stable sort keyed by
the raw date string (KeyError when the key is missing aborts the command);
Python string comparison is lexicographic by code point, which is the
lexicographic order on `List Char`. -/
def sortByDate (l : List Conference) : Option (List Conference) := do
  let keyed ← mapOpt (fun c => (c.date).map (fun d => (d, c))) l
  pure ((List.insertionSort (fun a b : Str × Conference => a.1 ≤ b.1) keyed).map (·.2))

/-- list_command (conference_bot (1).py lines 444-487): keep the
conferences matching the user's filters (a matcher exception aborts the
command), sort them by the raw date string, and display the first 10. -/
def list_command (conferences : List Conference) (user_filters : UserFilters) :
    Option (List Conference) := do
  let matching ← pyFilter (fun c => matches_filters c user_filters) conferences
  let sorted ← sortByDate matching
  pure (sorted.take 10)

/-- upcoming_command (conference_bot (1).py lines 493-531): each
conference is handled inside a try/except that swallows every exception,
so an unparseable date, a missing key, or a matcher error silently skips
the record.  Date parsing and the 90-day window test depend on the wall
clock and are abstracted into the `inWindow` predicate on the raw date
string (false also covers a raised strptime).  The survivors keep store
order — the command never sorts — and the first 10 are displayed. -/
def upcoming_command (inWindow : Str → Bool) (conferences : List Conference)
    (user_filters : UserFilters) : List Conference :=
  (conferences.filter (fun c =>
    match c.date with
    | none => false
    | some d => inWindow d && ((matches_filters c user_filters).getD false))).take 10

/-- A stored conference as ordered by conference_bot.py's
upcoming_conferences: only the start_date key (possibly absent) matters. -/
structure StoredConf where
  start_date : Option Str
deriving DecidableEq

/-- upcoming_conferences from conference_bot.py (lines 183-231): sort the
stored records by start_date, a missing date defaulting to '9999-12-31',
and display the first 10. -/
def upcoming_conferences (conferences : List StoredConf) : List StoredConf :=
  (List.insertionSort (fun a b : StoredConf =>
      a.start_date.getD "9999-12-31".toList ≤ b.start_date.getD "9999-12-31".toList)
    conferences).take 10

instance : IsTotal (Str × Conference) (fun a b => a.1 ≤ b.1) :=
  ⟨fun a b => le_total a.1 b.1⟩

instance : IsTrans (Str × Conference) (fun a b => a.1 ≤ b.1) :=
  ⟨fun _ _ _ h1 h2 => le_trans h1 h2⟩

instance : IsTotal StoredConf (fun a b =>
    a.start_date.getD "9999-12-31".toList ≤ b.start_date.getD "9999-12-31".toList) :=
  ⟨fun _ _ => le_total _ _⟩

instance : IsTrans StoredConf (fun a b =>
    a.start_date.getD "9999-12-31".toList ≤ b.start_date.getD "9999-12-31".toList) :=
  ⟨fun _ _ _ h1 h2 => le_trans h1 h2⟩

/-- `pyAny` cannot raise when no element test raises. -/
theorem pyAny_isSome {α : Type} (f : α → Option Bool) (l : List α)
    (h : ∀ x ∈ l, (f x).isSome) : (pyAny f l).isSome := by
  induction l with
  | nil => simp [pyAny]
  | cons x xs ih =>
    cases hfx : f x with
    | none =>
      have hx := h x (List.mem_cons_self x xs)
      rw [hfx] at hx
      simp at hx
    | some b =>
      cases b with
      | true => simp [pyAny, hfx]
      | false =>
        simp only [pyAny, hfx]
        exact ih fun y hy => h y (List.mem_cons_of_mem x hy)

/-- When no element test raises, `pyAny` returns True exactly on a hit. -/
theorem pyAny_eq_true {α : Type} (f : α → Option Bool) (l : List α)
    (h : ∀ x ∈ l, (f x).isSome) :
    (pyAny f l = some true ↔ ∃ x ∈ l, f x = some true) := by
  induction l with
  | nil => simp [pyAny]
  | cons x xs ih =>
    cases hfx : f x with
    | none =>
      have hx := h x (List.mem_cons_self x xs)
      rw [hfx] at hx
      simp at hx
    | some b =>
      cases b with
      | true => simp [pyAny, hfx]
      | false =>
        simp only [pyAny, hfx]
        rw [ih fun y hy => h y (List.mem_cons_of_mem x hy)]
        simp [hfx]

/-- C2: for every conference and every preference selecting both the
"all countries" and "all directions" sentinels, the matcher returns True
(the all/all fast path, regardless of any field of the conference). -/
theorem c2_all_all_matches (conference : Conference) (f : UserFilters)
    (hc : allCountries ∈ f.countries) (hd : allDirections ∈ f.directions) :
    matches_filters conference f = some true := by
  simp [matches_filters, hc, hd]

/-- C2 witness: the all/all preference matches a conference with every
optional field absent. -/
theorem c2_witness :
    allCountries ∈ [allCountries] ∧ allDirections ∈ [allDirections] ∧
    matches_filters ⟨none, none, none, none⟩
      ⟨[allCountries], [allDirections], none⟩ = some true :=
  ⟨by decide, by decide,
   c2_all_all_matches ⟨none, none, none, none⟩
     ⟨[allCountries], [allDirections], none⟩ (by decide) (by decide)⟩

/-- C4 counterexample: a preference with the early-bird toggle stored as
set (notify_early_bird = true) still matches a conference whose
early_bird_available is determined-false — the matcher has no early-bird
axis, while the claim requires the match to fail. -/
theorem c4_counterexample :
    matches_filters ⟨some "Germany".toList, some ["testing".toList], none, some false⟩
      ⟨[allCountries], [allDirections], some true⟩ = some true := by decide

/-- C4 amended: `_matches_filters` never consults the early-bird data; its
result is unchanged by the preference's notify_early_bird value and by the
conference's early_bird_available value, so the toggle restricts nothing. -/
theorem c4_early_bird_ignored (conference : Conference) (f : UserFilters)
    (eb nb : Option Bool) :
    matches_filters { conference with early_bird_available := eb }
      { f with notify_early_bird := nb } = matches_filters conference f := rfl

/-- C5: a sentinel present in an axis supersedes the concrete tokens of
that axis — replacing the whole selection by the sentinel alone leaves the
matcher's result (including a possible raise) unchanged, on either axis. -/
theorem c5_sentinel_supersedes (conference : Conference) (f : UserFilters) :
    (allCountries ∈ f.countries →
      matches_filters conference f =
        matches_filters conference
          ⟨[allCountries], f.directions, f.notify_early_bird⟩) ∧
    (allDirections ∈ f.directions →
      matches_filters conference f =
        matches_filters conference
          ⟨f.countries, [allDirections], f.notify_early_bird⟩) := by
  constructor
  · intro h
    simp [matches_filters, country_match, h]
  · intro h
    simp [matches_filters, direction_match, h]

/-- C5 witness: "all countries" plus Germany is the same selection as
"all countries" alone. -/
theorem c5_witness :
    allCountries ∈ [allCountries, "🇩🇪 Germany".toList] ∧
    matches_filters ⟨some "Germany".toList, some [], none, none⟩
        ⟨[allCountries, "🇩🇪 Germany".toList], [], none⟩ =
      matches_filters ⟨some "Germany".toList, some [], none, none⟩
        ⟨[allCountries], [], none⟩ :=
  ⟨by decide,
   (c5_sentinel_supersedes ⟨some "Germany".toList, some [], none, none⟩
     ⟨[allCountries, "🇩🇪 Germany".toList], [], none⟩).1 (by decide)⟩

/-- C6 counterexample: two batch records share the URL "u" with topic sets
{testing} then {testing, cloud}; deduplication keeps the first record and
drops the second, so the single stored record has topics {testing} — not
the union {testing, cloud} the claim requires. -/
theorem c6_counterexample :
    (discover_new_conferences (fun _ => none)
      [⟨"A".toList, "u".toList, [], [], [], [], ["testing".toList], [], none⟩,
       ⟨"B".toList, "u".toList, [], [], [], [],
        ["testing".toList, "cloud".toList], [], none⟩]).map (·.topics) =
      [["testing".toList]] := by decide

/-- C6 amended: when two records of a batch share a non-empty URL, the
first one in input order is kept wholesale (only enriched by the
early-bird probe) and the later one is discarded entirely; no field of the
later record — topics included — is merged in. -/
theorem c6_first_record_wins (probe : Str → Option Bool) (a b : ScrapedConf)
    (ha : a.url ≠ []) (hab : b.url = a.url) :
    discover_new_conferences probe [a, b] = [applyEarlyBird probe a] := by
  simp [discover_new_conferences, dedupLoop, ha, hab]

/-- C6 witness: the amended first-record-wins law at the counterexample's
own batch. -/
theorem c6_witness :
    discover_new_conferences (fun _ => none)
      [⟨"A".toList, "v".toList, [], [], [], [], ["testing".toList], [], none⟩,
       ⟨"B".toList, "v".toList, [], [], [], [], ["cloud".toList], [], none⟩] =
      [applyEarlyBird (fun _ => none)
        ⟨"A".toList, "v".toList, [], [], [], [], ["testing".toList], [], none⟩] :=
  c6_first_record_wins (fun _ => none)
    ⟨"A".toList, "v".toList, [], [], [], [], ["testing".toList], [], none⟩
    ⟨"B".toList, "v".toList, [], [], [], [], ["cloud".toList], [], none⟩
    (by decide) (by decide)

/-- The deduplication loop ignores a record with an empty URL wherever it
sits in the batch, for every seen-set. -/
theorem dedupLoop_drop_empty_url (probe : Str → Option Bool)
    (r : ScrapedConf) (hr : r.url = []) (l₁ l₂ : List ScrapedConf)
    (seen : List Str) :
    dedupLoop probe (l₁ ++ r :: l₂) seen = dedupLoop probe (l₁ ++ l₂) seen := by
  induction l₁ generalizing seen with
  | nil => simp [dedupLoop, hr]
  | cons c rest ih =>
    simp only [List.cons_append, dedupLoop]
    by_cases hc : c.url ≠ [] ∧ c.url ∉ seen
    · simp [hc, ih]
    · simp [hc, ih]

/-- C7: a record whose URL is absent or empty is dropped by the
deduplication and never inserted, while the rest of the batch is processed
exactly as if the record were not there. -/
theorem c7_empty_url_dropped (probe : Str → Option Bool) (r : ScrapedConf)
    (hr : r.url = []) (l₁ l₂ : List ScrapedConf) :
    discover_new_conferences probe (l₁ ++ r :: l₂) =
      discover_new_conferences probe (l₁ ++ l₂) :=
  dedupLoop_drop_empty_url probe r hr l₁ l₂ []

/-- C7 witness: a URL-less record between two valid ones changes nothing. -/
theorem c7_witness :
    (⟨"N".toList, [], [], [], [], [], [], [], none⟩ : ScrapedConf).url = [] ∧
    discover_new_conferences (fun _ => none)
      ([⟨"A".toList, "u".toList, [], [], [], [], [], [], none⟩] ++
        ⟨"N".toList, [], [], [], [], [], [], [], none⟩ ::
        [⟨"B".toList, "w".toList, [], [], [], [], [], [], none⟩]) =
      discover_new_conferences (fun _ => none)
        ([⟨"A".toList, "u".toList, [], [], [], [], [], [], none⟩] ++
          [⟨"B".toList, "w".toList, [], [], [], [], [], [], none⟩]) :=
  ⟨rfl,
   c7_empty_url_dropped (fun _ => none)
     ⟨"N".toList, [], [], [], [], [], [], [], none⟩ rfl
     [⟨"A".toList, "u".toList, [], [], [], [], [], [], none⟩]
     [⟨"B".toList, "w".toList, [], [], [], [], [], [], none⟩]⟩

/-- C9 counterexample: conference_bot.py's subscribe, on the first
interaction of the unknown user id "42", creates filters with an empty
country selection, five concrete topics, and the early-bird toggle on —
not the all/all early-bird-off defaults the claim states. -/
theorem c9_counterexample :
    subscribe (fun _ => none) "42".toList "42".toList =
      some { subscribed := true,
             filters :=
               { countries := [],
                 topics := ["QA".toList, "testing".toList, "IT".toList,
                            "DevOps".toList, "software".toList],
                 notify_early_bird := true } } := by decide

/-- C9 amended: on the first interaction of an unknown user id, the
conversation bot's /start and /subscribe create filters with both axes set
to the sentinel and no early-bird key (subscribed false after /start, true
after /subscribe), while conference_bot.py's /subscribe creates a
subscribed record with no country selection, the five concrete default
topics, and notify_early_bird switched on. -/
theorem c9_first_interaction_defaults
    (users0 : Str → Option UserRecord) (usersB : Str → Option SubscribeRecord)
    (user_id : Str) (h0 : users0 user_id = none) (hB : usersB user_id = none) :
    start_command_init users0 user_id user_id =
      some ⟨false, ⟨[allCountries], [allDirections], none⟩⟩ ∧
    subscribe_command users0 user_id user_id =
      some ⟨true, ⟨[allCountries], [allDirections], none⟩⟩ ∧
    subscribe usersB user_id user_id =
      some ⟨true, ⟨[], ["QA".toList, "testing".toList, "IT".toList,
                        "DevOps".toList, "software".toList], true⟩⟩ := by
  refine ⟨?_, ?_, ?_⟩
  · simp [start_command_init, h0, defaultUserRecord]
  · simp [subscribe_command, start_command_init, h0, defaultUserRecord]
  · simp [subscribe, hB, subscribeDefaultFilters]

/-- C9 witness: the defaults created for the unknown user id "7" over
empty user stores. -/
theorem c9_witness :
    (fun _ => (none : Option UserRecord)) "7".toList = none ∧
    (start_command_init (fun _ => none) "7".toList "7".toList =
        some ⟨false, ⟨[allCountries], [allDirections], none⟩⟩ ∧
      subscribe_command (fun _ => none) "7".toList "7".toList =
        some ⟨true, ⟨[allCountries], [allDirections], none⟩⟩ ∧
      subscribe (fun _ => none) "7".toList "7".toList =
        some ⟨true, ⟨[], ["QA".toList, "testing".toList, "IT".toList,
                          "DevOps".toList, "software".toList], true⟩⟩) :=
  ⟨rfl, c9_first_interaction_defaults (fun _ => none) (fun _ => none)
    "7".toList rfl rfl⟩

/-- A country token's test cannot raise when the conference has a country
and the token is non-blank. -/
theorem countryTest_isSome (conference : Conference) (c : Str)
    (hc : conference.country.isSome) (hs : pySplit c ≠ []) :
    (countryTest conference c).isSome := by
  obtain ⟨cc, hcc⟩ := Option.isSome_iff_exists.mp hc
  obtain ⟨w, hw⟩ := Option.isSome_iff_exists.mp (List.getLast?_isSome.mpr hs)
  simp [countryTest, hcc, hw]

/-- A direction token's test cannot raise when the conference has a
directions list and the token has at least two whitespace words. -/
theorem directionTest_isSome (conference : Conference) (d : Str)
    (hd : conference.directions.isSome) (hs : 1 < (pySplit d).length) :
    (directionTest conference d).isSome := by
  obtain ⟨ds, hds⟩ := Option.isSome_iff_exists.mp hd
  simp [directionTest, hds, List.getElem?_eq_getElem hs]

/-- C1 counterexample: a conference record lacking the country key, matched
against a preference selecting the concrete country Germany (with the
directions sentinel, so only the country axis is consulted), raises
KeyError — modelled `none` — instead of returning the boolean False the
claim requires for a missing optional field. -/
theorem c1_counterexample :
    matches_filters ⟨none, some [], none, none⟩
      ⟨["🇩🇪 Germany".toList], [allDirections], none⟩ = none := by decide

/-- C1 amended: the matcher is pure and boolean-valued provided the
conference carries both the country and directions fields, every selected
country token is non-blank, and every selected direction token has at
least two whitespace-separated words; a conference missing one of those
fields raises KeyError once a concrete token on that axis is evaluated,
rather than being treated as non-matching on the axis. -/
theorem c1_matches_total (conference : Conference) (f : UserFilters)
    (hc : conference.country.isSome) (hd : conference.directions.isSome)
    (hct : ∀ c ∈ f.countries, pySplit c ≠ [])
    (hdt : ∀ d ∈ f.directions, 1 < (pySplit d).length) :
    (matches_filters conference f).isSome := by
  have hcm : (country_match conference f.countries).isSome := by
    rw [country_match]
    split
    · rfl
    · exact pyAny_isSome _ _ fun c hcmem =>
        countryTest_isSome conference c hc (hct c hcmem)
  have hdm : (direction_match conference f.directions).isSome := by
    rw [direction_match]
    split
    · rfl
    · exact pyAny_isSome _ _ fun d hdmem =>
        directionTest_isSome conference d hd (hdt d hdmem)
  obtain ⟨cm, hcm'⟩ := Option.isSome_iff_exists.mp hcm
  obtain ⟨dm, hdm'⟩ := Option.isSome_iff_exists.mp hdm
  simp only [matches_filters]
  split
  · rfl
  · simp [hcm', hdm']

/-- C1 witness: a fully-populated conference and well-formed tokens give a
boolean result. -/
theorem c1_witness :
    (⟨some "Germany".toList, some ["testing".toList], none, none⟩ :
      Conference).country.isSome ∧
    (matches_filters ⟨some "Germany".toList, some ["testing".toList], none, none⟩
      ⟨["🇩🇪 Germany".toList], ["🧪 Testing/QA".toList], none⟩).isSome :=
  ⟨by decide,
   c1_matches_total ⟨some "Germany".toList, some ["testing".toList], none, none⟩
     ⟨["🇩🇪 Germany".toList], ["🧪 Testing/QA".toList], none⟩
     (by decide) (by decide) (by decide) (by decide)⟩

/-- The direction test, on a conference with a directions list, succeeds
exactly when the token's second whitespace word is one of the lowercased
tags. -/
theorem directionTest_eq_true (conference : Conference) (tags : List Str)
    (hd : conference.directions = some tags) (d : Str) :
    (directionTest conference d = some true ↔
      ∃ w, (pySplit d)[1]? = some w ∧ pyLower w ∈ tags.map pyLower) := by
  simp [directionTest, hd, Option.bind_eq_some]

/-- C3 counterexample: the selected token "🧪 Test" strips to "test", which
is a substring — but not an equal — of the conference tag "testing"; the
claim then demands the topic axis (and, with the country sentinel, the
whole match) to succeed, but the matcher tests exact membership and
returns False. -/
theorem c3_counterexample :
    (pySplit "🧪 Test".toList)[1]? = some "Test".toList ∧
    pyLower "Test".toList <:+: pyLower "testing".toList ∧
    matches_filters ⟨some "Germany".toList, some ["testing".toList], none, none⟩
      ⟨[allCountries], ["🧪 Test".toList], none⟩ = some false :=
  ⟨by decide, by decide, by decide⟩

/-- C3 amended: given the conference has a directions list and every
selected token has at least two whitespace words, the direction axis is
True exactly when the sentinel is selected or some selected token's second
whitespace word, lowercased, is exactly equal to one of the lowercased
conference tags — list membership, not substring containment. -/
theorem c3_direction_axis (conference : Conference) (directions tags : List Str)
    (hd : conference.directions = some tags)
    (hdt : ∀ d ∈ directions, 1 < (pySplit d).length) :
    (direction_match conference directions = some true ↔
      allDirections ∈ directions ∨
        ∃ d ∈ directions, ∃ w, (pySplit d)[1]? = some w ∧
          pyLower w ∈ tags.map pyLower) := by
  rw [direction_match]
  split
  case isTrue h => simp [h]
  case isFalse h =>
    rw [pyAny_eq_true _ _ fun d hdm =>
      directionTest_isSome conference d (by rw [hd]; rfl) (hdt d hdm)]
    simp only [h, false_or]
    constructor
    · rintro ⟨d, hdm, ht⟩
      exact ⟨d, hdm, (directionTest_eq_true conference tags hd d).mp ht⟩
    · rintro ⟨d, hdm, hw⟩
      exact ⟨d, hdm, (directionTest_eq_true conference tags hd d).mpr hw⟩

/-- C3 witness: the token "🚀 DevOps" matches the tag "devops" by exact
equality, and the amended equivalence evaluates accordingly. -/
theorem c3_witness :
    (⟨some "X".toList, some ["devops".toList], none, none⟩ :
        Conference).directions = some ["devops".toList] ∧
    (direction_match ⟨some "X".toList, some ["devops".toList], none, none⟩
        ["🚀 DevOps".toList] = some true ↔
      allDirections ∈ ["🚀 DevOps".toList] ∨
        ∃ d ∈ ["🚀 DevOps".toList], ∃ w, (pySplit d)[1]? = some w ∧
          pyLower w ∈ (["devops".toList] : List Str).map pyLower) :=
  ⟨rfl, c3_direction_axis ⟨some "X".toList, some ["devops".toList], none, none⟩
    ["🚀 DevOps".toList] ["devops".toList] rfl (by decide)⟩

/-- A prefix of `a ++ c :: b` that avoids `c` is already a prefix of `a`. -/
theorem prefix_of_append_cons {α : Type} {c : α} {b : List α} :
    ∀ (a l : List α), l <+: a ++ c :: b → c ∉ l → l <+: a
  | _, [], _, _ => List.nil_prefix
  | [], y :: l', h, hc => by
    rw [List.nil_append] at h
    obtain ⟨rfl, -⟩ := List.cons_prefix_cons.mp h
    exact absurd (List.mem_cons_self _ _) hc
  | x :: a', y :: l', h, hc => by
    rw [List.cons_append] at h
    obtain ⟨rfl, h'⟩ := List.cons_prefix_cons.mp h
    exact List.cons_prefix_cons.mpr
      ⟨rfl, prefix_of_append_cons a' l' h' fun hm => hc (List.mem_cons_of_mem _ hm)⟩

/-- An infix of `a ++ c :: b` that avoids `c` lies inside `a` or inside
`b`. -/
theorem infix_append_cons {α : Type} {c : α} {b : List α} :
    ∀ (a l : List α), l <:+: a ++ c :: b → c ∉ l → l <:+: a ∨ l <:+: b
  | [], l, h, hc => by
    rw [List.nil_append, List.infix_cons_iff] at h
    cases h with
    | inl hp =>
      cases l with
      | nil => exact Or.inl List.nil_infix
      | cons y l' =>
        obtain ⟨rfl, -⟩ := List.cons_prefix_cons.mp hp
        exact absurd (List.mem_cons_self _ _) hc
    | inr hi => exact Or.inr hi
  | x :: a', l, h, hc => by
    rw [List.cons_append, List.infix_cons_iff] at h
    cases h with
    | inl hp =>
      exact Or.inl ((prefix_of_append_cons (x :: a') l (by simpa using hp) hc).isInfix)
    | inr hi =>
      cases infix_append_cons a' l hi hc with
      | inl h1 => exact Or.inl (List.infix_cons h1)
      | inr h2 => exact Or.inr h2

/-- Unfolding `intercalate` over at least two pieces. -/
theorem intercalate_cons_cons {α : Type} (sep x y : List α) (zs : List (List α)) :
    List.intercalate sep (x :: y :: zs) =
      (x ++ sep) ++ List.intercalate sep (y :: zs) := by
  simp [List.intercalate, List.intersperse_cons_cons]

/-- Every piece is an infix of the intercalation. -/
theorem infix_of_mem_intercalate {α : Type} (sep : List α) :
    ∀ (ts : List (List α)) (s : List α), s ∈ ts → s <:+: List.intercalate sep ts
  | [], s, hs => absurd hs (List.not_mem_nil s)
  | [t], s, hs => by
    rw [List.mem_singleton] at hs
    subst hs
    simp [List.intercalate]
  | t :: t2 :: rest, s, hs => by
    rw [intercalate_cons_cons]
    rcases List.mem_cons.mp hs with rfl | hs'
    · rw [List.append_assoc]
      exact (List.prefix_append s _).isInfix
    · exact (infix_of_mem_intercalate sep (t2 :: rest) s hs').trans
        (List.suffix_append _ _).isInfix

/-- A non-empty pattern avoiding the separator is an infix of the
intercalation exactly when it is an infix of one of the pieces. -/
theorem infix_intercalate {α : Type} {c : α} {l : List α}
    (hcl : c ∉ l) (hl : l ≠ []) :
    ∀ ts : List (List α),
      (l <:+: List.intercalate [c] ts ↔ ∃ s ∈ ts, l <:+: s)
  | [] => by simp [List.intercalate, List.infix_nil, hl]
  | [t] => by simp [List.intercalate]
  | t :: t2 :: rest => by
    constructor
    · intro h
      rw [intercalate_cons_cons, List.append_assoc] at h
      have h' : l <:+: t ++ c :: List.intercalate [c] (t2 :: rest) := by
        simpa using h
      cases infix_append_cons t l h' hcl with
      | inl h1 => exact ⟨t, List.mem_cons_self _ _, h1⟩
      | inr h2 =>
        obtain ⟨s, hs, hls⟩ := (infix_intercalate hcl hl (t2 :: rest)).mp h2
        exact ⟨s, List.mem_cons_of_mem _ hs, hls⟩
    · rintro ⟨s, hs, hls⟩
      exact hls.trans (infix_of_mem_intercalate [c] (t :: t2 :: rest) s hs)

/-- Lowercasing commutes with joining on a space. -/
theorem pyLower_intercalate :
    ∀ ts : List Str, pyLower (List.intercalate [' '] ts) =
      List.intercalate [' '] (ts.map pyLower)
  | [] => rfl
  | [s] => by simp [List.intercalate, pyLower]
  | s :: s2 :: rest => by
    rw [List.map_cons, List.map_cons, intercalate_cons_cons, intercalate_cons_cons,
      ← List.map_cons pyLower s2 rest, ← pyLower_intercalate (s2 :: rest)]
    simp [pyLower, List.map_append]

/-- Every vocabulary token is space-free and non-empty. -/
theorem relevant_topics_wf : ∀ t ∈ relevant_topics, ' ' ∉ t ∧ t ≠ [] := by decide

/-- The code's joined-topic-string test agrees with the per-tag reading of
"some vocabulary token occurs in the topic set". -/
theorem c8_topic_equiv (topics : List Str) :
    (topics ≠ [] ∧ ∃ t ∈ relevant_topics,
        t <:+: pyLower (List.intercalate [' '] topics)) ↔
      ∃ tag ∈ topics, ∃ t ∈ relevant_topics, t <:+: pyLower tag := by
  constructor
  · rintro ⟨hne, t, ht, hinf⟩
    rw [pyLower_intercalate] at hinf
    obtain ⟨hsp, hne'⟩ := relevant_topics_wf t ht
    obtain ⟨s, hs, hts⟩ := (infix_intercalate hsp hne' _).mp hinf
    obtain ⟨tag, htag, rfl⟩ := List.mem_map.mp hs
    exact ⟨tag, htag, t, ht, hts⟩
  · rintro ⟨tag, htag, t, ht, hinf⟩
    refine ⟨List.ne_nil_of_mem htag, t, ht, ?_⟩
    rw [pyLower_intercalate]
    obtain ⟨hsp, hne'⟩ := relevant_topics_wf t ht
    exact (infix_intercalate hsp hne' _).mpr
      ⟨pyLower tag, List.mem_map_of_mem pyLower htag, hinf⟩

/-- C8: the relevance pre-filter accepts a payload exactly when its country
contains an allow-list entry case-insensitively and at least one
vocabulary token occurs, as a case-insensitive substring, in one of its
topics or in its name. -/
theorem c8_relevance_iff (conf : SourcePayload) :
    (is_relevant_conference conf = true ↔ relevantSpec conf) := by
  rw [relevantSpec, ← c8_topic_equiv (conf.topics.getD [])]
  simp only [is_relevant_conference]
  split_ifs with h1 h2 h3
  · have hcountry : ∃ eu ∈ european_countries,
        pyLower eu <:+: pyLower (conf.country.getD []) := by
      simpa [List.any_eq_true] using h1
    have htopic : ∃ t ∈ relevant_topics,
        t <:+: pyLower (List.intercalate [' '] (conf.topics.getD [])) := by
      simpa [List.any_eq_true] using h2.2
    simp [hcountry, htopic, h2.1]
  · have hcountry : ∃ eu ∈ european_countries,
        pyLower eu <:+: pyLower (conf.country.getD []) := by
      simpa [List.any_eq_true] using h1
    have hname : ∃ t ∈ relevant_topics,
        t <:+: pyLower (conf.name.getD []) := by
      simpa [List.any_eq_true] using h3
    simp [hcountry, hname]
  · constructor
    · intro h
      exact absurd h (by decide)
    · rintro ⟨-, hAB⟩
      cases hAB with
      | inl hA =>
        exact h2 ⟨hA.1, by
          simp only [List.any_eq_true, decide_eq_true_eq]
          exact hA.2⟩
      | inr hB =>
        exact h3 (by
          simp only [List.any_eq_true, decide_eq_true_eq]
          exact hB)
  · constructor
    · intro h
      exact absurd h (by decide)
    · rintro ⟨⟨eu, heu, hinf⟩, -⟩
      exact h1 (by
        simp only [List.any_eq_true, decide_eq_true_eq]
        exact ⟨eu, heu, hinf⟩)

/-- Everything `mapOpt` produces comes from an element of the input. -/
theorem mapOpt_mem {α β : Type} {f : α → Option β} :
    ∀ {l : List α} {ys : List β}, mapOpt f l = some ys →
      ∀ y ∈ ys, ∃ x ∈ l, f x = some y := by
  intro l
  induction l with
  | nil =>
    intro ys h y hy
    simp only [mapOpt, Option.some_inj] at h
    subst h
    exact absurd hy (List.not_mem_nil y)
  | cons x xs ih =>
    intro ys h y hy
    simp only [mapOpt] at h
    obtain ⟨y0, hy0, rest⟩ := Option.bind_eq_some.mp h
    obtain ⟨ys0, hys0, heq⟩ := Option.bind_eq_some.mp rest
    obtain rfl := Option.some_inj.mp heq
    rcases List.mem_cons.mp hy with rfl | hmem
    · exact ⟨x, List.mem_cons_self _ _, hy0⟩
    · obtain ⟨x', hx', hfx'⟩ := ih hys0 y hmem
      exact ⟨x', List.mem_cons_of_mem _ hx', hfx'⟩

/-- C10 counterexample: under the all/all preference, list_command sorts a
conference whose date is the unparseable empty string BEFORE one dated
2026-03-15 (the empty string is lexicographically least): the record with
the unparseable date is displayed first, neither sorted last nor omitted
as the claim requires. -/
theorem c10_counterexample :
    list_command
      [⟨some "A".toList, some [], some "2026-03-15".toList, none⟩,
       ⟨some "B".toList, some [], some "".toList, none⟩]
      ⟨[allCountries], [allDirections], none⟩ =
      some [⟨some "B".toList, some [], some "".toList, none⟩,
            ⟨some "A".toList, some [], some "2026-03-15".toList, none⟩] := by
  decide

/-- C10 amended: the listing operations display at most the first 10
records.  list_command sorts the matching set ascending by the raw date
string, so a present-but-unparseable date is ordered by plain string
comparison wherever that falls, without failing the command; part_000's
upcoming_command never sorts — its output is a subsequence of the store
order (conferences whose date is missing, unparseable, or out of window
are silently omitted) — and conference_bot.py's upcoming_conferences sorts
by start_date with missing dates defaulting to '9999-12-31'. -/
theorem c10_listing_shape (conferences : List Conference) (f : UserFilters)
    (out : List Conference) (h : list_command conferences f = some out)
    (inWindow : Str → Bool) (stored : List StoredConf) :
    out.length ≤ 10 ∧
    List.Sorted (fun a b : Conference => a.date.getD [] ≤ b.date.getD []) out ∧
    (upcoming_command inWindow conferences f).length ≤ 10 ∧
    (upcoming_command inWindow conferences f).Sublist conferences ∧
    (upcoming_conferences stored).length ≤ 10 ∧
    List.Sorted (fun a b : StoredConf =>
        a.start_date.getD "9999-12-31".toList ≤
          b.start_date.getD "9999-12-31".toList)
      (upcoming_conferences stored) := by
  simp only [list_command] at h
  obtain ⟨matching, hmatch, hrest⟩ := Option.bind_eq_some.mp h
  obtain ⟨sorted, hsort, hout⟩ := Option.bind_eq_some.mp hrest
  obtain rfl := Option.some_inj.mp hout
  simp only [sortByDate] at hsort
  obtain ⟨keyed, hkeyed, hsorted_eq⟩ := Option.bind_eq_some.mp hsort
  obtain rfl := Option.some_inj.mp hsorted_eq
  have hperm := List.perm_insertionSort (fun a b : Str × Conference => a.1 ≤ b.1) keyed
  have hpair := List.sorted_insertionSort (fun a b : Str × Conference => a.1 ≤ b.1) keyed
  have hinv : ∀ p ∈ List.insertionSort (fun a b : Str × Conference => a.1 ≤ b.1) keyed,
      p.2.date = some p.1 := by
    intro p hp
    obtain ⟨c, hcmem, hfc⟩ := mapOpt_mem hkeyed p (hperm.mem_iff.mp hp)
    obtain ⟨d, hd, rfl⟩ := Option.map_eq_some'.mp hfc
    exact hd
  have hsorted2 : List.Sorted (fun a b : Conference => a.date.getD [] ≤ b.date.getD [])
      ((List.insertionSort (fun a b : Str × Conference => a.1 ≤ b.1) keyed).map (·.2)) := by
    rw [List.Sorted, List.pairwise_map]
    refine List.Pairwise.imp_of_mem ?_ hpair
    intro a b ha hb hr
    rw [hinv a ha, hinv b hb]
    exact hr
  refine ⟨List.length_take_le _ _, ?_, List.length_take_le _ _, ?_,
    List.length_take_le _ _, ?_⟩
  · exact List.Pairwise.sublist (List.take_sublist _ _) hsorted2
  · exact (List.take_sublist _ _).trans (List.filter_sublist _)
  · exact List.Pairwise.sublist (List.take_sublist _ _)
      (List.sorted_insertionSort _ _)

/-- C10 witness: the shape facts at a one-conference store. -/
theorem c10_witness :
    list_command [⟨some "G".toList, some [], some "2026-01-01".toList, none⟩]
        ⟨[allCountries], [allDirections], none⟩ =
      some [⟨some "G".toList, some [], some "2026-01-01".toList, none⟩] ∧
    (([⟨some "G".toList, some [], some "2026-01-01".toList, none⟩] :
        List Conference).length ≤ 10 ∧
      List.Sorted (fun a b : Conference => a.date.getD [] ≤ b.date.getD [])
        [⟨some "G".toList, some [], some "2026-01-01".toList, none⟩] ∧
      (upcoming_command (fun _ => false)
        [⟨some "G".toList, some [], some "2026-01-01".toList, none⟩]
        ⟨[allCountries], [allDirections], none⟩).length ≤ 10 ∧
      (upcoming_command (fun _ => false)
        [⟨some "G".toList, some [], some "2026-01-01".toList, none⟩]
        ⟨[allCountries], [allDirections], none⟩).Sublist
        [⟨some "G".toList, some [], some "2026-01-01".toList, none⟩] ∧
      (upcoming_conferences [⟨none⟩]).length ≤ 10 ∧
      List.Sorted (fun a b : StoredConf =>
          a.start_date.getD "9999-12-31".toList ≤
            b.start_date.getD "9999-12-31".toList)
        (upcoming_conferences [⟨none⟩])) :=
  ⟨by decide,
   c10_listing_shape [⟨some "G".toList, some [], some "2026-01-01".toList, none⟩]
     ⟨[allCountries], [allDirections], none⟩
     [⟨some "G".toList, some [], some "2026-01-01".toList, none⟩]
     (by decide) (fun _ => false) [⟨none⟩]⟩

end ConfBot
